import Mathlib

/-!
Verification of the ball-and-hole grid simulation.

The Python sources (`Playground.py`, `Agent.py`, `Controller.py`) are shallowly
embedded below.  Grid cells are the composite strings the source manipulates;
list/str indexing and mutation follow Python semantics (negative indices wrap,
out-of-range access is an error, modelled by `Option`; `str.replace` replaces
every non-overlapping occurrence left to right; `in` is substring containment).
`consts.py` and `utils.py` are not part of the sources; the token constants,
`get_new_position` and the `is_a_hole_cell` / `is_a_orb_cell` predicates are
modelled from the specification and carry doc comments saying so.
-/

namespace BallHole

/-- Python list read `l[i]`: a negative index wraps once from the end; an index
outside `[-len, len)` is an `IndexError`, modelled as `none`. -/
def pyGet {α : Type} (l : List α) (i : Int) : Option α :=
  if 0 ≤ i then l.get? i.toNat
  else if 0 ≤ i + l.length then l.get? (i + l.length).toNat
  else none

/-- Python list write `l[i] = a`, with the same index semantics as `pyGet`. -/
def pySet {α : Type} (l : List α) (i : Int) (a : α) : Option (List α) :=
  if 0 ≤ i then (if i < l.length then some (l.set i.toNat a) else none)
  else if 0 ≤ i + l.length then some (l.set (i + l.length).toNat a) else none

/-- Python nested write `g[row][col] = v` on a list of lists. -/
def pySet2 {α : Type} (g : List (List α)) (row col : Int) (v : α) :
    Option (List (List α)) :=
  (pyGet g row).bind fun r => (pySet r col v).bind fun r2 => pySet g row r2

/-- Substring test on character lists (Python `pat in s`). -/
def hasSub : List Char → List Char → Bool
  | [], pat => pat.isEmpty
  | c :: t, pat => pat.isPrefixOf (c :: t) || hasSub t pat

/-- Python `pat in s` for strings. -/
def pyIn (pat s : String) : Bool :=
  hasSub s.toList pat.toList

/-- Helper for `pyReplace`: replaces non-overlapping occurrences of `pat`
left to right, with fuel bounding the scan (fuel = length of the scanned
list suffices, since at least one character is consumed per step). -/
def listReplaceAux (pat rep : List Char) : Nat → List Char → List Char
  | _, [] => []
  | 0, s => s
  | Nat.succ n, c :: rest =>
    if pat.isPrefixOf (c :: rest) && !pat.isEmpty then
      rep ++ listReplaceAux pat rep n (List.drop (pat.length - 1) rest)
    else
      c :: listReplaceAux pat rep n rest

/-- Python `s.replace(pat, rep)` (all non-overlapping occurrences, left to
right; the sources never call it with an empty pattern). -/
def pyReplace (s pat rep : String) : String :=
  (listReplaceAux pat.toList rep.toList s.toList.length s.toList).asString

/-- Removes the first occurrence of `a` from `l` (helper for `pyRemove`). -/
def eraseFirst {α : Type} [DecidableEq α] : List α → α → List α
  | [], _ => []
  | x :: xs, a => if x = a then xs else x :: eraseFirst xs a

/-- Python `list.remove` / `set.remove`: removes the first occurrence, raises
(`none`) when the element is absent. -/
def pyRemove {α : Type} [DecidableEq α] (l : List α) (a : α) : Option (List α) :=
  if a ∈ l then some (eraseFirst l a) else none

/-- Python `set.add` on an insertion-ordered set modelled as a list. -/
def setAdd {α : Type} [DecidableEq α] (l : List α) (a : α) : List α :=
  if a ∈ l then l else l ++ [a]

/-- Modelled from the spec: `consts.py` is not among the sources.  The spec
fixes five mutually exclusive terrain tokens (`Empty | Obstacle | Orb | Hole |
FilledHole`); the concrete strings are chosen pairwise non-overlapping so that
the sources' substring tests coincide with token membership (in particular the
filled-hole token does not contain the hole token, matching the spec's "no
re-filling" and the `placeOrb` failure condition "the cell lacks the Hole
token"). -/
def EMPTY : String := "empty"

/-- Modelled from the spec: obstacle terrain token, see `EMPTY`. -/
def OBSTACLE : String := "obstacle"

/-- Modelled from the spec: orb terrain token, see `EMPTY`. -/
def ORB : String := "orb"

/-- Modelled from the spec: hole terrain token, see `EMPTY`. -/
def HOLE : String := "hole"

/-- Modelled from the spec: filled-hole terrain token, see `EMPTY`. -/
def FILLED_HOLE : String := "filled"

/-- Modelled from the spec: occupant-label tag; `Agent.get_label`'s docstring
in the sources fixes labels to `AGENT-` followed by the agent id. -/
def AGENT : String := "AGENT"

/-- Modelled from the spec: direction constant; pinned by the literal
`self.direction = 'up'` in `Agent.__init__`. -/
def UP : String := "up"

/-- Modelled from the spec: direction constant (cardinal directions in
clockwise order up, right, down, left). -/
def RIGHT : String := "right"

/-- Modelled from the spec: direction constant. -/
def DOWN : String := "down"

/-- Modelled from the spec: direction constant. -/
def LEFT : String := "left"

/-- `Agent.directions`, the clockwise cycle used by `turn_clockwise`. -/
def dirList : List String := [UP, RIGHT, DOWN, LEFT]

/-- The five terrain tokens of the data model. -/
def terrainTokens : List String := [EMPTY, OBSTACLE, ORB, HOLE, FILLED_HOLE]

/-- The mutable state of `Agent` (Agent.py).  Ordered collections keep the
source's discovery/insertion order; Python sets are insertion-ordered lists
here. -/
structure Agent where
  agent_id : String
  position : Int × Int
  field_of_view : Nat
  visibility : List (List String)
  visited_cell : List (Int × Int)
  direction : String
  battery : Int
  has_ball : Bool
  hole_positions : List (Int × Int)
  orb_positions : List (Int × Int)
  target_position : Option (Int × Int)
  is_a_random_target : Bool
  filled_hole_positions : List (Int × Int)
deriving Repr, DecidableEq

/-- `Agent.get_label`: `AGENT-<id>`. -/
def get_label (a : Agent) : String :=
  AGENT ++ "-" ++ a.agent_id

/-- The mutable state of `Playground` (Playground.py).  `grid` is row-major:
`grid[y][x]` is the cell at position `(x, y)`; `xAxis` is the width and
`yAxis` the height from the `dimension` pair. -/
structure Playground where
  xAxis : Nat
  yAxis : Nat
  grid : List (List String)
  agent_start_positions : List (Int × Int)
  num_holes : Nat
  num_orbs : Nat
  orb_positions : List (Int × Int)
  field_of_view : Nat
deriving Repr, DecidableEq

/-- Well-formedness of the grid as built by `Playground.__init__`: `yAxis`
rows, each of length `xAxis`. -/
def wf (pg : Playground) : Prop :=
  pg.grid.length = pg.yAxis ∧ ∀ row ∈ pg.grid, row.length = pg.xAxis

instance (pg : Playground) : Decidable (wf pg) := by
  unfold wf; infer_instance

/-- `Playground.is_valid_position`.  A falsy (`None`) position is rejected;
then both coordinates are compared against `self.xAxis` — the source's line
273 checks `y >= self.xAxis` (the width), not `self.yAxis`. -/
def is_valid_position (pg : Playground) (pos : Option (Int × Int)) : Bool :=
  match pos with
  | none => false
  | some (x, y) =>
    if x < 0 ∨ (pg.xAxis : Int) ≤ x then false
    else if y < 0 ∨ (pg.xAxis : Int) ≤ y then false
    else true

/-- `Playground.get_cell_state`: the raw read `self.grid[y][x]`, with Python
indexing semantics and no bounds check of its own. -/
def get_cell_state (pg : Playground) (p : Int × Int) : Option String :=
  (pyGet pg.grid p.2).bind fun row => pyGet row p.1

/-- The write `self.grid[y][x] = v` at position `p = (x, y)`. -/
def pySetCell (pg : Playground) (p : Int × Int) (v : String) : Option Playground :=
  (pySet2 pg.grid p.2 p.1 v).map fun g => { pg with grid := g }

/-- `Playground.add_agent`.  On a start-position collision it returns `False`;
otherwise it records the start position and writes the agent's label with the
source's `self.grid[x][y] = agent.get_label()` — row index `x`, column index
`y`, i.e. the transpose of the convention every other method uses. -/
def add_agent (pg : Playground) (a : Agent) : Option (Bool × Playground) :=
  if a.position ∈ pg.agent_start_positions then some (false, pg)
  else
    let pg1 := { pg with
      agent_start_positions := setAdd pg.agent_start_positions a.position }
    match pySet2 pg1.grid a.position.1 a.position.2 (get_label a) with
    | none => none
    | some g => some (true, { pg1 with grid := g })

/-- `Playground.get_surrounding_cells`: a `(2*(fov/2)+1)`-sided window centered
on `position`; entries outside `[0, len(grid)) × [0, len(grid[0]))` are the
sentinel `"out"` (the source's short-circuit `or` never evaluates
`len(self.grid[0])` when the grid is empty, and neither does this embedding
reach the default). -/
def get_surrounding_cells (pg : Playground) (p : Int × Int) (fov : Nat) :
    List (List String) :=
  let side := 2 * (fov / 2) + 1
  (List.range side).map fun r : Nat =>
    (List.range side).map fun c : Nat =>
      let i : Int := p.2 - (fov / 2 : Nat) + (r : Int)
      let j : Int := p.1 - (fov / 2 : Nat) + (c : Int)
      if i < 0 ∨ j < 0 ∨ (pg.grid.length : Int) ≤ i ∨
          ((pg.grid.headD []).length : Int) ≤ j then "out"
      else (pg.grid.getD i.toNat []).getD j.toNat "out"

/-- `Playground.agent_exit_cell`: removes every occurrence of the agent's
label from its current cell, collapses `,,` to `,`, turns an empty result into
`EMPTY`, and strips one trailing comma.  The chain of in-place writes in the
source has the same net effect as the single final write here. -/
def agent_exit_cell (pg : Playground) (a : Agent) : Option Playground :=
  match get_cell_state pg a.position with
  | none => none
  | some cur =>
    let c1 := pyReplace (pyReplace cur (get_label a) "") ",," ","
    let c2 := if c1 = "" then EMPTY else c1
    let c3 := if c2.toList.getLast? = some ',' then c2.toList.dropLast.asString
              else c2
    pySetCell pg a.position c3

/-- `Playground.agent_enter_cell`: rejects an invalid destination, otherwise
reads the destination cell, exits the agent from its current cell, then
appends `,<label>` to the destination state read before the exit. -/
def agent_enter_cell (pg : Playground) (pos : Option (Int × Int)) (a : Agent) :
    Option (Bool × Playground) :=
  if is_valid_position pg pos = false then some (false, pg)
  else
    match pos with
    | none => none
    | some p =>
      match get_cell_state pg p with
      | none => none
      | some cur =>
        match agent_exit_cell pg a with
        | none => none
        | some pg1 =>
          match pySetCell pg1 p (cur ++ "," ++ get_label a) with
          | none => none
          | some pg2 => some (true, pg2)

/-- `Playground.pick_orb`: validity check, then `ORB` membership, then the
cell write `replace(ORB, EMPTY)` and `orb_positions.remove(position)` (a
`KeyError`, i.e. `none`, if the registry lacks the position). -/
def pick_orb (pg : Playground) (pos : Option (Int × Int)) :
    Option (Bool × Playground) :=
  if is_valid_position pg pos = false then some (false, pg)
  else
    match pos with
    | none => none
    | some p =>
      match get_cell_state pg p with
      | none => none
      | some cur =>
        if pyIn ORB cur = false then some (false, pg)
        else
          match pySetCell pg p (pyReplace cur ORB EMPTY) with
          | none => none
          | some pg1 =>
            match pyRemove pg1.orb_positions p with
            | none => none
            | some ops => some (true, { pg1 with orb_positions := ops })

/-- One iteration of the loop in `Playground.switch_orb_positions` for the orb
at `orb`: `mv` is the sampled `prob <= 0.1` outcome and `dir` the sampled
direction. -/
def switchOne (mv : Bool) (dir : String) (pg : Playground) (orb : Int × Int) :
    Option Playground :=
  if mv = false then some pg
  else
    let np : Option (Int × Int) :=
      if dir = UP then some (orb.1, orb.2 - 1)
      else if dir = RIGHT then some (orb.1 + 1, orb.2)
      else if dir = DOWN then some (orb.1, orb.2 + 1)
      else if dir = LEFT then some (orb.1 - 1, orb.2)
      else none
    if is_valid_position pg np = false then some pg
    else
      match np with
      | none => some pg
      | some q =>
        match get_cell_state pg q with
        | none => none
        | some ncell =>
          if pyIn ORB ncell || pyIn FILLED_HOLE ncell then some pg
          else if pyIn EMPTY ncell then
            match get_cell_state pg orb with
            | none => none
            | some ocell =>
              match pySetCell pg orb (pyReplace ocell ORB EMPTY) with
              | none => none
              | some pg1 =>
                match get_cell_state pg1 q with
                | none => none
                | some ncell2 =>
                  match pySetCell pg1 q (pyReplace ncell2 EMPTY ORB) with
                  | none => none
                  | some pg2 =>
                    match pyRemove pg2.orb_positions orb with
                    | none => none
                    | some ops =>
                      some { pg2 with orb_positions := setAdd ops q }
          else if pyIn HOLE ncell then
            match get_cell_state pg orb with
            | none => none
            | some ocell =>
              match pySetCell pg orb (pyReplace ocell ORB EMPTY) with
              | none => none
              | some pg1 =>
                match get_cell_state pg1 q with
                | none => none
                | some ncell2 =>
                  match pySetCell pg1 q (pyReplace ncell2 HOLE FILLED_HOLE) with
                  | none => none
                  | some pg2 =>
                    match pyRemove pg2.orb_positions orb with
                    | none => none
                    | some ops => some { pg2 with orb_positions := ops }
          else some pg

/-- The loop of `switch_orb_positions` over the registry snapshot, threading
the per-orb randomness by index. -/
def switchAll (rand : Nat → Bool × String) :
    Nat → Playground → List (Int × Int) → Option Playground
  | _, pg, [] => some pg
  | i, pg, orb :: rest =>
    match switchOne (rand i).1 (rand i).2 pg orb with
    | none => none
    | some pg1 => switchAll rand (i + 1) pg1 rest

/-- `Playground.switch_orb_positions`: iterates over a snapshot of
`orb_positions` taken before any mutation. -/
def switch_orb_positions (rand : Nat → Bool × String) (pg : Playground) :
    Option Playground :=
  switchAll rand 0 pg pg.orb_positions

/-- `Playground.place_orb`: validity, carried-orb and `HOLE`-membership
checks, then `replace(HOLE, FILLED_HOLE)` on the cell followed by exactly one
call to `switch_orb_positions`. -/
def place_orb (rand : Nat → Bool × String) (pg : Playground)
    (pos : Option (Int × Int)) (a : Agent) : Option (Bool × Playground) :=
  if is_valid_position pg pos = false then some (false, pg)
  else if a.has_ball = false then some (false, pg)
  else
    match pos with
    | none => none
    | some p =>
      match get_cell_state pg p with
      | none => none
      | some cur =>
        if pyIn HOLE cur = false then some (false, pg)
        else
          match pySetCell pg p (pyReplace cur HOLE FILLED_HOLE) with
          | none => none
          | some pg1 =>
            match switch_orb_positions rand pg1 with
            | none => none
            | some pg2 => some (true, pg2)

/-- Modelled from the spec: `Playground.is_a_hole_cell` is called by
`Agent.interact_with_environment` but is not among the sources.  Per the spec
("carrying an orb and standing on a `Hole` cell"), it tests the `Hole` token
at the position. -/
def is_a_hole_cell (pg : Playground) (p : Int × Int) : Bool :=
  match get_cell_state pg p with
  | none => false
  | some c => pyIn HOLE c

/-- Modelled from the spec: `Playground.is_a_orb_cell` is called by
`Agent.interact_with_environment` but is not among the sources.  Per the spec
("empty-handed and standing on an `Orb` cell"), it tests the `Orb` token at
the position. -/
def is_a_orb_cell (pg : Playground) (p : Int × Int) : Bool :=
  match get_cell_state pg p with
  | none => false
  | some c => pyIn ORB c

/-- `Agent.manhattan_distance`. -/
def manhattan_distance (p q : Int × Int) : Nat :=
  (p.1 - q.1).natAbs + (p.2 - q.2).natAbs

/-- `Agent.turn_clockwise`: the next direction in `dirList`; a direction not
in the list is a `ValueError` in the source (`none` here). -/
def turn_clockwise (a : Agent) : Option Agent :=
  match dirList.findIdx? (fun d => d = a.direction) with
  | none => none
  | some i => some { a with direction := dirList.getD ((i + 1) % 4) UP }

/-- The source's `while self.direction != d: self.turn_clockwise()` loop;
fuel 4 covers the whole clockwise cycle. -/
def turnTo (d : String) : Nat → Agent → Option Agent
  | 0, a => if a.direction = d then some a else none
  | n + 1, a =>
    if a.direction = d then some a
    else
      match turn_clockwise a with
      | none => none
      | some a1 => turnTo d n a1

/-- Modelled from the spec: `utils.get_new_position` is not among the
sources.  Per the spec's movement step and the direction offsets in
`switch_orb_positions`, up decreases `y`, right increases `x`, down increases
`y`, left decreases `x`. -/
def get_new_position (d : String) (p : Int × Int) : Int × Int :=
  if d = UP then (p.1, p.2 - 1)
  else if d = RIGHT then (p.1 + 1, p.2)
  else if d = DOWN then (p.1, p.2 + 1)
  else if d = LEFT then (p.1 - 1, p.2)
  else p

/-- `Agent.take_step_forward`: decrements the battery, then attempts
`agent_enter_cell` one step ahead; on success the position moves and joins the
visited set; the method returns `True` in either case. -/
def take_step_forward (pg : Playground) (a : Agent) :
    Option (Bool × Agent × Playground) :=
  let a1 := { a with battery := a.battery - 1 }
  let np := get_new_position a1.direction a1.position
  match agent_enter_cell pg (some np) a1 with
  | none => none
  | some (true, pg1) =>
    some (true,
      { a1 with position := np, visited_cell := setAdd a1.visited_cell np },
      pg1)
  | some (false, pg1) => some (true, a1, pg1)

/-- `Agent.take_ball`: fails when already carrying; otherwise `pick_orb` at
the current position, and on success sets the flag and removes the position
from the agent's known-orb list (`ValueError`, i.e. `none`, if absent). -/
def take_ball (pg : Playground) (a : Agent) :
    Option (Bool × Agent × Playground) :=
  if a.has_ball then some (false, a, pg)
  else
    match pick_orb pg (some a.position) with
    | none => none
    | some (true, pg1) =>
      match pyRemove a.orb_positions a.position with
      | none => none
      | some ops =>
        some (true, { a with has_ball := true, orb_positions := ops }, pg1)
    | some (false, pg1) => some (false, a, pg1)

/-- `Agent.put_ball_in_hole`: fails when not carrying; otherwise `place_orb`
at the current position, and on success clears the flag and removes the
position from the agent's known-hole list. -/
def put_ball_in_hole (rand : Nat → Bool × String) (pg : Playground) (a : Agent) :
    Option (Bool × Agent × Playground) :=
  if a.has_ball = false then some (false, a, pg)
  else
    match place_orb rand pg (some a.position) a with
    | none => none
    | some (true, pg1) =>
      match pyRemove a.hole_positions a.position with
      | none => none
      | some hps =>
        some (true, { a with has_ball := false, hole_positions := hps }, pg1)
    | some (false, pg1) => some (false, a, pg1)

/-- `Agent.see`. -/
def see (a : Agent) (v : List (List String)) : Agent :=
  { a with visibility := v }

/-- The inner column loop of `Agent.update_item_positions` over one visibility
row: appends newly seen orb/hole positions in discovery order and records
filled holes. -/
def updRow (tlx tly : Int) (i : Nat) :
    Nat → List String →
    List (Int × Int) × List (Int × Int) × List (Int × Int) →
    List (Int × Int) × List (Int × Int) × List (Int × Int)
  | _, [], st => st
  | j, cell :: rest, st =>
    let env : Int × Int := (tlx + j, tly + i)
    let orbs := if pyIn ORB cell ∧ env ∉ st.1 then st.1 ++ [env] else st.1
    let holes :=
      if pyIn HOLE cell ∧ env ∉ st.2.1 then st.2.1 ++ [env] else st.2.1
    let filled := if pyIn FILLED_HOLE cell then setAdd st.2.2 env else st.2.2
    updRow tlx tly i (j + 1) rest (orbs, holes, filled)

/-- The outer row loop of `Agent.update_item_positions`. -/
def updAll (tlx tly : Int) :
    Nat → List (List String) →
    List (Int × Int) × List (Int × Int) × List (Int × Int) →
    List (Int × Int) × List (Int × Int) × List (Int × Int)
  | _, [], st => st
  | i, row :: rest, st => updAll tlx tly (i + 1) rest (updRow tlx tly i 0 row st)

/-- `Agent.update_item_positions`: scans the visibility window, translating
window indices to absolute positions from the top-left corner
`position - field_of_view // 2`. -/
def update_item_positions (a : Agent) : Agent :=
  let tlx : Int := a.position.1 - (a.field_of_view / 2 : Nat)
  let tly : Int := a.position.2 - (a.field_of_view / 2 : Nat)
  let st := updAll tlx tly 0 a.visibility
    (a.orb_positions, a.hole_positions, a.filled_hole_positions)
  { a with orb_positions := st.1, hole_positions := st.2.1,
           filled_hole_positions := st.2.2 }

/-- The `min(target_list, key=manhattan_distance)` of
`Agent.find_nearest_target`: Python's `min` keeps the first element among
equal keys, so ties break toward discovery order. -/
def find_nearest (p : Int × Int) : List (Int × Int) → Option (Int × Int)
  | [] => none
  | x :: xs =>
    match find_nearest p xs with
    | none => some x
    | some b =>
      if manhattan_distance p b < manhattan_distance p x then some b else some x

/-- `Agent.find_random_position`: the unbounded retry loop, driven by an
oracle list of sampled positions; `none` models the loop never finding an
unvisited position. -/
def find_random_position (stream : List (Int × Int))
    (visited : List (Int × Int)) : Option (Int × Int) :=
  stream.find? (fun p => decide (p ∉ visited))

/-- The source's `target_list = self.hole_positions if self.has_ball else
self.orb_positions`. -/
def targetList (a : Agent) : List (Int × Int) :=
  if a.has_ball then a.hole_positions else a.orb_positions

/-- `Agent.update_target`: keeps a non-random target; otherwise takes the
nearest known hole (carrying) or orb (empty-handed), removing it from that
belief list, falling back to a random unvisited position when no candidate is
known (the sampling range of the environment is folded into the oracle
`stream`). -/
def update_target (stream : List (Int × Int)) (pg : Playground) (a : Agent) :
    Option Agent :=
  if a.target_position ≠ none ∧ a.is_a_random_target = false then some a
  else if targetList a ≠ [] then
    match find_nearest a.position (targetList a) with
    | none => none
    | some t =>
      some { a with
        target_position := some t,
        is_a_random_target := false,
        hole_positions :=
          if a.has_ball then eraseFirst a.hole_positions t
          else a.hole_positions,
        orb_positions :=
          if a.has_ball then a.orb_positions
          else eraseFirst a.orb_positions t }
  else if a.is_a_random_target = false then
    match find_random_position stream a.visited_cell with
    | none => none
    | some q =>
      some { a with target_position := some q, is_a_random_target := true }
  else some a

/-- `Agent.interact_with_environment`: deposit when carrying on a hole cell,
pick up when empty-handed on an orb cell (returning `True` whether or not the
inner operation succeeded), otherwise clear a reached target and return
`False`. -/
def interact_with_environment (rand : Nat → Bool × String) (pg : Playground)
    (a : Agent) : Option (Bool × Agent × Playground) :=
  if a.has_ball && is_a_hole_cell pg a.position then
    match put_ball_in_hole rand pg a with
    | none => none
    | some (_, a1, pg1) => some (true, a1, pg1)
  else if !a.has_ball && is_a_orb_cell pg a.position then
    match take_ball pg a with
    | none => none
    | some (_, a1, pg1) => some (true, a1, pg1)
  else if a.target_position = some a.position then
    some (false,
      { a with target_position := none, is_a_random_target := false }, pg)
  else some (false, a, pg)

/-- Whether `Agent.action`'s interact-first branch fires: the agent stands on
a hole cell carrying an orb, or on an orb cell empty-handed (perception does
not change the carried flag or the position, so this is decidable on the
round-start state). -/
def interactFlag (pg : Playground) (a : Agent) : Bool :=
  (a.has_ball && is_a_hole_cell pg a.position) ||
  (!a.has_ball && is_a_orb_cell pg a.position)

/-- `Agent.action`: perceive, interact-first (re-perceiving the own cell on
interaction and ending the turn), otherwise recompute the target, rotate until
facing it (x before y) and step forward. -/
def action (stream : List (Int × Int)) (rand : Nat → Bool × String)
    (pg : Playground) (a : Agent) : Option (Agent × Playground) :=
  let a1 := update_item_positions a
  match interact_with_environment rand pg a1 with
  | none => none
  | some (true, a2, pg2) =>
    match get_cell_state pg2 a2.position with
    | none => none
    | some c =>
      match pySet2 a2.visibility (a2.field_of_view / 2 : Nat)
          (a2.field_of_view / 2 : Nat) c with
      | none => none
      | some v =>
        some (update_item_positions { a2 with visibility := v }, pg2)
  | some (false, a2, pg2) =>
    match update_target stream pg2 a2 with
    | none => none
    | some a3 =>
      match a3.target_position with
      | none => none
      | some t =>
        let a4 :=
          if a3.position.1 < t.1 then turnTo RIGHT 4 a3
          else if t.1 < a3.position.1 then turnTo LEFT 4 a3
          else if a3.position.2 < t.2 then turnTo DOWN 4 a3
          else if t.2 < a3.position.2 then turnTo UP 4 a3
          else some a3
        match a4 with
        | none => none
        | some a5 =>
          match take_step_forward pg2 a5 with
          | none => none
          | some (_, a6, pg3) => some (a6, pg3)

/-- The per-agent randomness of one round: the sampled fallback positions for
`find_random_position` and the per-orb redistribution samples. -/
structure RoundRand where
  stream : List (Int × Int)
  orb : Nat → Bool × String

/-- The per-agent body of `Controller.next_round`: a battery below zero skips
the agent entirely; otherwise the agent receives a fresh view of its
surroundings and acts.  (`Controller.next_round` chains
`agent.see(...).action(...)`; the `Agent` variant the controller drives is not
among the sources — the src `Agent.see` returns `None` — so the chaining is
modelled from the spec as perceive-then-act.) -/
def round_step (rr : RoundRand) (pg : Playground) (a : Agent) :
    Option (Agent × Playground) :=
  if a.battery < 0 then some (a, pg)
  else
    let a1 := see a (get_surrounding_cells pg a.position a.field_of_view)
    action rr.stream rr.orb pg a1

/-- The roster loop of `Controller.next_round`, indexing the per-agent
randomness by roster position. -/
def nextRoundAux (rrs : Nat → RoundRand) :
    Nat → Playground → List Agent → Option (List Agent × Playground)
  | _, pg, [] => some ([], pg)
  | i, pg, a :: rest =>
    match round_step (rrs i) pg a with
    | none => none
    | some (a1, pg1) =>
      match nextRoundAux rrs (i + 1) pg1 rest with
      | none => none
      | some (as1, pg2) => some (a1 :: as1, pg2)

/-- `Controller.next_round`: each agent in roster order, sequentially. -/
def next_round (rrs : Nat → RoundRand) (pg : Playground) (agents : List Agent) :
    Option (List Agent × Playground) :=
  nextRoundAux rrs 0 pg agents

/-- An agent as produced by `Agent.__init__` with an explicit id, position and
battery (facing up, empty-handed, empty belief, the start position visited). -/
def mkAgent (id1 : String) (p : Int × Int) (bat : Int) (hb : Bool) : Agent :=
  { agent_id := id1, position := p, field_of_view := 3, visibility := [[]],
    visited_cell := [p], direction := UP, battery := bat, has_ball := hb,
    hole_positions := [], orb_positions := [], target_position := none,
    is_a_random_target := false, filled_hole_positions := [] }

/-- Degenerate redistribution randomness: no orb ever moves. -/
def noRand : Nat → Bool × String := fun _ => (false, UP)

/-- Round randomness with an empty fallback stream and inert redistribution. -/
def rrNone : RoundRand := { stream := [], orb := noRand }

/-- A 3-wide, 2-high all-empty playground (C1, C8). -/
def pgC1 : Playground :=
  { xAxis := 3, yAxis := 2,
    grid := [[EMPTY, EMPTY, EMPTY], [EMPTY, EMPTY, EMPTY]],
    agent_start_positions := [], num_holes := 0, num_orbs := 0,
    orb_positions := [], field_of_view := 3 }

/-- A 2 by 2 playground with four distinct terrain tokens (C2). -/
def pgC2 : Playground :=
  { xAxis := 2, yAxis := 2, grid := [[EMPTY, ORB], [HOLE, FILLED_HOLE]],
    agent_start_positions := [], num_holes := 1, num_orbs := 1,
    orb_positions := [(1, 0)], field_of_view := 3 }

/-- The agent of the C3 counterexample: eligible, empty-handed, standing on
an orb cell. -/
def agC3 : Agent := mkAgent "a1" (0, 0) 5 false

/-- The playground of the C3 counterexample: a 2 by 2 grid with an orb under
the agent at the origin. -/
def pgC3 : Playground :=
  { xAxis := 2, yAxis := 2, grid := [["orb,AGENT-a1", EMPTY], [EMPTY, EMPTY]],
    agent_start_positions := [(0, 0)], num_holes := 0, num_orbs := 1,
    orb_positions := [(0, 0)], field_of_view := 3 }

/-- A 2 by 2 all-empty playground (C4). -/
def pgC4 : Playground :=
  { xAxis := 2, yAxis := 2, grid := [[EMPTY, EMPTY], [EMPTY, EMPTY]],
    agent_start_positions := [], num_holes := 0, num_orbs := 0,
    orb_positions := [], field_of_view := 3 }

/-- The agent of the C4 theorem, starting at the off-diagonal position
`(1, 0)`. -/
def agC4 : Agent := mkAgent "a1" (1, 0) 30 false

/-- A 2-wide, 1-high playground (C5): the position `(0, 1)` lies below the
grid but passes `is_valid_position`. -/
def pgC5 : Playground :=
  { xAxis := 2, yAxis := 1, grid := [[EMPTY, HOLE]],
    agent_start_positions := [], num_holes := 1, num_orbs := 0,
    orb_positions := [], field_of_view := 3 }

/-- A carrying agent placed at the out-of-grid position `(0, 1)` (C5). -/
def agC5 : Agent := mkAgent "a1" (0, 1) 30 true

/-- A 2-wide, 1-high playground with one orb at the origin (C6). -/
def pgC6 : Playground :=
  { xAxis := 2, yAxis := 1, grid := [[ORB, EMPTY]],
    agent_start_positions := [], num_holes := 0, num_orbs := 1,
    orb_positions := [(0, 0)], field_of_view := 3 }

/-- Redistribution randomness for C6: the orb moves, and it moves down. -/
def randC6 : Nat → Bool × String := fun _ => (true, DOWN)

/-- An agent with three known orbs for the C7 witness: `(1, 0)` is nearest,
`(2, 0)` and `(2, 0)` follow. -/
def agC7 : Agent :=
  { mkAgent "a1" (0, 0) 5 false with orb_positions := [(3, 0), (1, 0), (2, 0)] }

/-- A 1 by 1 playground (enough for `update_target`, which only threads the
environment through to the random fallback). -/
def pgC7 : Playground :=
  { xAxis := 1, yAxis := 1, grid := [[EMPTY]],
    agent_start_positions := [], num_holes := 0, num_orbs := 0,
    orb_positions := [], field_of_view := 3 }

/-- A 3-wide, 2-high playground with distinct tokens for the C8 witness. -/
def pgC8 : Playground :=
  { xAxis := 3, yAxis := 2, grid := [[EMPTY, ORB, HOLE], [FILLED_HOLE, EMPTY, ORB]],
    agent_start_positions := [], num_holes := 1, num_orbs := 2,
    orb_positions := [(1, 0), (2, 1)], field_of_view := 3 }

/-- A 2 by 2 all-empty playground for the C9 counterexample. -/
def pgC9 : Playground :=
  { xAxis := 2, yAxis := 2, grid := [[EMPTY, EMPTY], [EMPTY, EMPTY]],
    agent_start_positions := [], num_holes := 0, num_orbs := 0,
    orb_positions := [], field_of_view := 3 }

/-- First agent of the C9 counterexample, starting at the origin. -/
def agA : Agent := mkAgent "a1" (0, 0) 30 false

/-- Second agent of the C9 counterexample, starting at `(1, 1)`. -/
def agB : Agent := mkAgent "a2" (1, 1) 30 false

/-- The second agent after it has moved to the origin. -/
def agB0 : Agent := mkAgent "a2" (0, 0) 30 false

/-- The C9 counterexample run: both agents start, the second joins the first
at the origin, then both exit that cell in turn. -/
def pgC9final : Option Playground :=
  match add_agent pgC9 agA with
  | some (true, p1) =>
    match add_agent p1 agB with
    | some (true, p2) =>
      match agent_enter_cell p2 (some (0, 0)) agB with
      | some (true, p3) =>
        match agent_exit_cell p3 agA with
        | some p4 => agent_exit_cell p4 agB0
        | _ => none
      | _ => none
    | _ => none
  | _ => none

/-- A 1 by 1 playground whose only cell holds `c` (C9 amended theorem). -/
def pgCell (c : String) : Playground :=
  { xAxis := 1, yAxis := 1, grid := [[c]],
    agent_start_positions := [], num_holes := 0, num_orbs := 0,
    orb_positions := [], field_of_view := 3 }

/-- The cell left at the origin after agent `a1` exits a 1 by 1 playground
whose cell was `c`. -/
def exitResult (c : String) : Option String :=
  match agent_exit_cell (pgCell c) (mkAgent "a1" (0, 0) 30 false) with
  | none => none
  | some pg => get_cell_state pg (0, 0)

/-- A 1 by 1 playground whose agent faces the wall (C10 witness). -/
def pgW10 : Playground :=
  { xAxis := 1, yAxis := 1, grid := [["empty,AGENT-w"]],
    agent_start_positions := [(0, 0)], num_holes := 0, num_orbs := 0,
    orb_positions := [], field_of_view := 3 }

/-- The agent of the C10 witness: facing up at the origin, so the forward
position `(0, -1)` is invalid. -/
def agW10 : Agent := mkAgent "w" (0, 0) 3 false

/-- The concrete result of the C10 witness step. -/
def rW10 : Bool × Agent × Playground :=
  match take_step_forward pgW10 agW10 with
  | some r => r
  | none => (false, agW10, pgW10)

/-- A 2 by 2 playground for the C3 witness: the agent stands at the origin of
an otherwise empty grid. -/
def pgW3 : Playground :=
  { xAxis := 2, yAxis := 2, grid := [["empty,AGENT-w", EMPTY], [EMPTY, EMPTY]],
    agent_start_positions := [(0, 0)], num_holes := 0, num_orbs := 0,
    orb_positions := [], field_of_view := 3 }

/-- The eligible, non-interacting agent of the C3 witness. -/
def agW3 : Agent := mkAgent "w" (0, 0) 3 false

/-- Round randomness for the C3 witness: the fallback sampler proposes
`(1, 0)`. -/
def rrW3 : RoundRand := { stream := [(1, 0)], orb := noRand }

/-- The concrete result of the C3 witness round. -/
def rsW3 : Agent × Playground :=
  match round_step rrW3 pgW3 agW3 with
  | some r => r
  | none => (agW3, pgW3)

/-- A 2 by 2 playground with a hole at the origin and an agent label at
`(1, 1)` (C9 witness). -/
def pgE : Playground :=
  { xAxis := 2, yAxis := 2, grid := [[HOLE, EMPTY], [EMPTY, "AGENT-e"]],
    agent_start_positions := [(1, 1)], num_holes := 1, num_orbs := 0,
    orb_positions := [], field_of_view := 3 }

/-- The agent entering the origin hole cell of `pgE` from `(1, 1)`. -/
def agE : Agent := mkAgent "e" (1, 1) 30 false

/-- The concrete playground after `agE` enters the origin cell of `pgE`. -/
def pgE2 : Playground :=
  match agent_enter_cell pgE (some (0, 0)) agE with
  | some (true, x) => x
  | _ => pgE

/-- The target-recomputation contract of C7 at `(stream, pg, a)`: the new
target is a nearest candidate, first in discovery order among equal-distance
ones, consumed from the matching belief list, with the other belief list and
the rest of the agent untouched. -/
def nearestSpec (stream : List (Int × Int)) (pg : Playground) (a : Agent) :
    Prop :=
  ∃ a' t l₁ l₂,
    update_target stream pg a = some a' ∧
    a'.target_position = some t ∧ a'.is_a_random_target = false ∧
    targetList a = l₁ ++ t :: l₂ ∧
    (∀ u ∈ l₁,
      manhattan_distance a.position t < manhattan_distance a.position u) ∧
    (∀ u ∈ targetList a,
      manhattan_distance a.position t ≤ manhattan_distance a.position u) ∧
    (a.has_ball = true →
      a'.hole_positions = l₁ ++ l₂ ∧ a'.orb_positions = a.orb_positions) ∧
    (a.has_ball = false →
      a'.orb_positions = l₁ ++ l₂ ∧ a'.hole_positions = a.hole_positions) ∧
    a'.position = a.position ∧ a'.battery = a.battery ∧
    a'.has_ball = a.has_ball ∧ a'.visited_cell = a.visited_cell

theorem pyGet_eq_none_iff {α : Type} (l : List α) (i : Int) :
    pyGet l i = none ↔ ¬(-(l.length : Int) ≤ i ∧ i < l.length) := by
  unfold pyGet
  split
  · rw [List.get?_eq_none]; omega
  · split
    · rw [List.get?_eq_none]; omega
    · simp; omega

theorem pyGet_wrap {α : Type} (l : List α) (i : Int)
    (h1 : -(l.length : Int) ≤ i) (h2 : i < 0) :
    pyGet l i = pyGet l (i + l.length) := by
  simp only [pyGet]
  rw [if_neg (by omega : ¬ (0 : Int) ≤ i),
      if_pos (by omega : (0 : Int) ≤ i + (l.length : Int)),
      if_pos (by omega : (0 : Int) ≤ i + (l.length : Int))]

theorem pyGet_mem {α : Type} {l : List α} {i : Int} {a : α}
    (h : pyGet l i = some a) : a ∈ l := by
  unfold pyGet at h
  split at h
  · exact List.get?_mem h
  · split at h
    · exact List.get?_mem h
    · cases h

theorem pySet_length {α : Type} {l l' : List α} {i : Int} {a : α}
    (h : pySet l i a = some l') : l'.length = l.length := by
  unfold pySet at h
  split at h
  · split at h
    · cases h; exact List.length_set ..
    · cases h
  · split at h
    · cases h; exact List.length_set ..
    · cases h

theorem pySet_pyGet {α : Type} {l l' : List α} {i : Int} {a : α}
    (h : pySet l i a = some l') : pyGet l' i = some a := by
  have hlen := pySet_length h
  unfold pySet at h
  unfold pyGet
  split at h
  · split at h
    · cases h
      rename_i h0 hlt
      rw [if_pos h0]
      exact List.get?_set_eq_of_lt _ (by omega)
    · cases h
  · split at h
    · cases h
      rename_i h0 h1
      rw [if_neg h0, if_pos (by rw [hlen] at *; omega)]
      rw [List.length_set]
      exact List.get?_set_eq_of_lt _ (by omega)
    · cases h

theorem pySetCell_get {pg pg' : Playground} {p : Int × Int} {v : String}
    (h : pySetCell pg p v = some pg') : get_cell_state pg' p = some v := by
  unfold pySetCell pySet2 at h
  rw [Option.map_eq_some'] at h
  obtain ⟨g, hg, hpg⟩ := h
  rw [Option.bind_eq_some] at hg
  obtain ⟨row, hr, hg2⟩ := hg
  rw [Option.bind_eq_some] at hg2
  obtain ⟨row2, hs, hg3⟩ := hg2
  subst hpg
  unfold get_cell_state
  simp only [pySet_pyGet hg3, Option.some_bind]
  exact pySet_pyGet hs

/-- C1: `is_valid_position` compares the y-coordinate against the width, so on
the 3-wide, 2-high grid the position `(0, 2)` — whose y-coordinate is at least
the height but below the width — is accepted instead of rejected, and the
"validated" read at it then fails. -/
theorem is_valid_position_accepts_y_below_width :
    is_valid_position pgC1 (some (0, 2)) = true ∧
    (pgC1.yAxis : Int) ≤ 2 ∧ get_cell_state pgC1 (0, 2) = none := by
  decide

/-- C2: `get_cell_state` is not a bounds-checked read: the out-of-bounds
position `(-1, 0)` is not rejected but wrapped, Python-style, to the
in-bounds cell `(1, 0)` holding the orb token. -/
theorem get_cell_state_wraps_negative_index :
    get_cell_state pgC2 (-1, 0) = some ORB ∧
    get_cell_state pgC2 (1, 0) = some ORB := by
  decide

/-- C2 (amended): `get_cell_state` performs no bounds check of its own; it is
a raw Python double index, failing exactly outside `[-size, size)` in either
coordinate and wrapping negative coordinates by adding the respective size. -/
theorem get_cell_state_python_indexing (pg : Playground) (hwf : wf pg)
    (x y : Int) :
    (get_cell_state pg (x, y) = none ↔
      ¬(-(pg.yAxis : Int) ≤ y ∧ y < pg.yAxis ∧
        -(pg.xAxis : Int) ≤ x ∧ x < pg.xAxis)) ∧
    (-(pg.yAxis : Int) ≤ y → y < 0 →
      get_cell_state pg (x, y) = get_cell_state pg (x, y + pg.yAxis)) ∧
    (-(pg.xAxis : Int) ≤ x → x < 0 →
      get_cell_state pg (x, y) = get_cell_state pg (x + pg.xAxis, y)) := by
  obtain ⟨hlen, hrows⟩ := hwf
  refine ⟨?_, ?_, ?_⟩
  · unfold get_cell_state
    cases hr : pyGet pg.grid y with
    | none =>
      have hy := (pyGet_eq_none_iff pg.grid y).mp hr
      rw [hlen] at hy
      simp only [hr, Option.none_bind]
      exact iff_of_true (by trivial) (by omega)
    | some row =>
      have hy : -(pg.yAxis : Int) ≤ y ∧ y < pg.yAxis := by
        by_contra hc
        have hn : pyGet pg.grid y = none :=
          (pyGet_eq_none_iff pg.grid y).mpr (by rw [hlen]; exact hc)
        rw [hr] at hn
        cases hn
      have hrow : row.length = pg.xAxis := hrows row (pyGet_mem hr)
      simp only [hr, Option.some_bind]
      rw [pyGet_eq_none_iff, hrow]
      omega
  · intro h1 h2
    unfold get_cell_state
    rw [show pyGet pg.grid y = pyGet pg.grid (y + pg.yAxis) by
      have := pyGet_wrap pg.grid y (by rw [hlen]; exact h1) h2
      rw [hlen] at this; exact this]
  · intro h1 h2
    unfold get_cell_state
    cases hr : pyGet pg.grid y with
    | none => rfl
    | some row =>
      simp only [Option.some_bind]
      have hrow : row.length = pg.xAxis := hrows row (pyGet_mem hr)
      have := pyGet_wrap row x (by rw [hrow]; exact h1) h2
      rw [hrow] at this
      exact this

/-- C2 (witness): the amended theorem at the concrete playground `pgC2` and
the wrapped coordinate `(-1, 0)`. -/
theorem get_cell_state_python_indexing_witness :
    get_cell_state pgC2 (-1, 0) = get_cell_state pgC2 (-1 + pgC2.xAxis, 0) :=
  (get_cell_state_python_indexing pgC2 (by decide) (-1) 0).2.2
    (by decide) (by decide)

/-- C3: an eligible agent (battery 5 at round start) that interacts — it
stands on an orb cell empty-handed and picks the orb up — ends the round with
its battery unchanged, not decremented. -/
theorem round_interaction_keeps_battery :
    (0 : Int) ≤ agC3.battery ∧
    (next_round (fun _ => rrNone) pgC3 [agC3]).map
      (fun r => r.1.map (fun x => x.battery)) = some [agC3.battery] := by
  decide

/-- C4: `add_agent` writes `grid[x][y]`.  Registering an agent at `(1, 0)` on
an empty 2 by 2 grid succeeds but leaves the cell at `(1, 0)` empty and puts
the label at the transposed cell `(0, 1)`; the collision branch, by contrast,
returns `False` and changes nothing. -/
theorem add_agent_writes_transposed_cell :
    (add_agent pgC4 agC4).map
      (fun r => (r.1, get_cell_state r.2 (1, 0), get_cell_state r.2 (0, 1))) =
      some (true, some EMPTY, some (get_label agC4)) ∧
    add_agent { pgC4 with agent_start_positions := [(1, 0)] } agC4 =
      some (false, { pgC4 with agent_start_positions := [(1, 0)] }) := by
  decide

/-- C5: on the 2-wide, 1-high grid the position `(0, 1)` is invalid in the
claim's sense (its y-coordinate reaches the height), yet a carrying agent's
`place_orb` there neither returns `False` nor leaves the state alone: the
position passes `is_valid_position` and the read fails. -/
theorem place_orb_fails_on_claimed_invalid_position :
    (pgC5.yAxis : Int) ≤ 1 ∧ agC5.has_ball = true ∧
    is_valid_position pgC5 (some (0, 1)) = true ∧
    place_orb noRand pgC5 (some (0, 1)) agC5 = none := by
  decide

/-- C6: redistribution on the 2-wide, 1-high grid, with the orb at the origin
sampled to move down: the destination `(0, 1)` is outside the grid, so the
claim requires "nothing happens", but the destination passes
`is_valid_position` and the read fails. -/
theorem switch_orb_positions_crashes_out_of_grid :
    (pgC6.yAxis : Int) ≤ 1 ∧
    is_valid_position pgC6 (some (0, 1)) = true ∧
    switch_orb_positions randC6 pgC6 = none := by
  decide

/-- C9: after the second agent joins the first at the origin and both exit in
turn, the origin cell — with no terrain token and no occupants left — is the
empty string, not `EMPTY`. -/
theorem agent_exit_cell_leaves_empty_string :
    pgC9final.bind (fun pg => get_cell_state pg (0, 0)) = some "" ∧
    "" ≠ EMPTY := by
  decide

/-- C10: `take_step_forward` never reports failure: whenever it returns at
all, it returns `True` with the battery decremented by exactly one, and when
the forward position is invalid (so `agent_enter_cell` failed) the position,
the visited set and the playground are unchanged. -/
theorem take_step_forward_always_true (pg : Playground) (a : Agent)
    (r : Bool × Agent × Playground) (h : take_step_forward pg a = some r) :
    r.1 = true ∧ r.2.1.battery = a.battery - 1 ∧
    (is_valid_position pg
        (some (get_new_position a.direction a.position)) = false →
      r.2.1.position = a.position ∧ r.2.1.visited_cell = a.visited_cell ∧
      r.2.2 = pg) := by
  unfold take_step_forward at h
  dsimp only at h
  split at h
  · cases h
  · rename_i pg1 heq
    cases h
    refine ⟨rfl, rfl, ?_⟩
    intro hv
    unfold agent_enter_cell at heq
    rw [if_pos hv] at heq
    cases heq
  · rename_i pg1 heq
    cases h
    refine ⟨rfl, rfl, ?_⟩
    intro hv
    unfold agent_enter_cell at heq
    rw [if_pos hv] at heq
    injection heq with heq2
    injection heq2 with _ heq3
    exact ⟨rfl, rfl, heq3.symm⟩

/-- C10 (witness): the agent of `pgW10` faces the wall; its step returns
`True`, burns one unit of battery and moves nothing. -/
theorem take_step_forward_always_true_witness :
    rW10.1 = true ∧ rW10.2.1.battery = agW10.battery - 1 ∧
    rW10.2.1.position = agW10.position ∧
    rW10.2.1.visited_cell = agW10.visited_cell ∧ rW10.2.2 = pgW10 := by
  have h := take_step_forward_always_true pgW10 agW10 rW10 (by decide)
  exact ⟨h.1, h.2.1, (h.2.2 (by decide)).1, (h.2.2 (by decide)).2.1,
    (h.2.2 (by decide)).2.2⟩

theorem find_nearest_eq_none {p : Int × Int} {l : List (Int × Int)}
    (h : find_nearest p l = none) : l = [] := by
  cases l with
  | nil => rfl
  | cons x xs =>
    unfold find_nearest at h
    split at h
    · cases h
    · split at h <;> cases h

theorem find_nearest_spec (p : Int × Int) (l : List (Int × Int)) :
    ∀ t : Int × Int, find_nearest p l = some t →
      ∃ l₁ l₂, l = l₁ ++ t :: l₂ ∧
        (∀ u ∈ l₁, manhattan_distance p t < manhattan_distance p u) ∧
        (∀ u ∈ l, manhattan_distance p t ≤ manhattan_distance p u) := by
  induction l with
  | nil => intro t h; cases h
  | cons x xs ih =>
    intro t h
    unfold find_nearest at h
    split at h
    · rename_i hb
      cases h
      have hxs : xs = [] := find_nearest_eq_none hb
      subst hxs
      exact ⟨[], [], rfl, by simp, by simp⟩
    · rename_i b hb
      split at h
      · rename_i hlt
        cases h
        obtain ⟨l₁, l₂, hsplit, hstrict, hmin⟩ := ih t hb
        refine ⟨x :: l₁, l₂, by rw [hsplit, List.cons_append], ?_, ?_⟩
        · intro u hu
          rcases List.mem_cons.mp hu with hux | hul
          · subst hux; exact hlt
          · exact hstrict u hul
        · intro u hu
          rcases List.mem_cons.mp hu with hux | hul
          · subst hux; exact Nat.le_of_lt hlt
          · exact hmin u hul
      · rename_i hge
        cases h
        obtain ⟨l₁, l₂, hsplit, hstrict, hmin⟩ := ih b hb
        refine ⟨[], xs, rfl, by simp, ?_⟩
        intro u hu
        rcases List.mem_cons.mp hu with hux | hul
        · subst hux; exact Nat.le_refl _
        · exact Nat.le_trans (Nat.le_of_not_lt hge) (hmin u hul)

theorem eraseFirst_append {α : Type} [DecidableEq α] (t : α) :
    ∀ l₁ l₂ : List α, t ∉ l₁ → eraseFirst (l₁ ++ t :: l₂) t = l₁ ++ l₂ := by
  intro l₁
  induction l₁ with
  | nil => intro l₂ _; simp [eraseFirst]
  | cons x xs ih =>
    intro l₂ hnot
    have hx : ¬ x = t := fun hc => hnot (by rw [hc]; exact List.mem_cons_self ..)
    simp only [List.cons_append, eraseFirst, if_neg hx, List.append_eq]
    rw [ih l₂ (fun hc => hnot (List.mem_cons_of_mem _ hc))]

/-- C7: when the agent recomputes its target (no target, or the current one
is a random fallback) and candidates exist, `update_target` picks the nearest
known hole (carrying) or orb (empty-handed) by Manhattan distance, first in
discovery order among ties, removes it from that belief list and leaves the
other list and the rest of the agent alone; with a non-random target set it
changes nothing at all. -/
theorem update_target_nearest :
    (∀ (stream : List (Int × Int)) (pg : Playground) (a : Agent),
      (a.target_position = none ∨ a.is_a_random_target = true) →
      targetList a ≠ [] →
      nearestSpec stream pg a) ∧
    (∀ (stream : List (Int × Int)) (pg : Playground) (a : Agent)
      (t : Int × Int),
      a.target_position = some t → a.is_a_random_target = false →
      update_target stream pg a = some a) := by
  constructor
  · intro stream pg a hrec hne
    have hcond : ¬(a.target_position ≠ none ∧ a.is_a_random_target = false) := by
      rcases hrec with h1 | h2
      · intro hc; exact hc.1 h1
      · intro hc; rw [h2] at hc; cases hc.2
    cases hfind : find_nearest a.position (targetList a) with
    | none => exact absurd (find_nearest_eq_none hfind) hne
    | some t =>
      obtain ⟨l₁, l₂, hsplit, hstrict, hmin⟩ :=
        find_nearest_spec a.position (targetList a) t hfind
      have hnotmem : t ∉ l₁ := fun hc => Nat.lt_irrefl _ (hstrict t hc)
      refine ⟨{ a with
          target_position := some t,
          is_a_random_target := false,
          hole_positions :=
            if a.has_ball then eraseFirst a.hole_positions t
            else a.hole_positions,
          orb_positions :=
            if a.has_ball then a.orb_positions
            else eraseFirst a.orb_positions t },
        t, l₁, l₂, ?_, rfl, rfl, hsplit, hstrict, hmin, ?_, ?_, rfl, rfl, rfl,
        rfl⟩
      · unfold update_target
        rw [if_neg hcond, if_pos hne, hfind]
      · intro hb
        have htl : targetList a = a.hole_positions := by
          simp [targetList, hb]
        rw [htl] at hsplit
        simp only [hb, if_true]
        exact ⟨by rw [hsplit]; exact eraseFirst_append t l₁ l₂ hnotmem,
          by trivial⟩
      · intro hb
        have htl : targetList a = a.orb_positions := by
          simp [targetList, hb]
        rw [htl] at hsplit
        simp only [hb, Bool.false_eq_true, if_false]
        exact ⟨by rw [hsplit]; exact eraseFirst_append t l₁ l₂ hnotmem,
          by trivial⟩
  · intro stream pg a t ht hrand
    unfold update_target
    rw [if_pos ⟨by rw [ht]; simp, hrand⟩]

/-- C7 (witness): the agent `agC7` (no target, three known orbs) recomputes
and gets the nearest orb `(1, 0)`; an agent with a non-random target is left
unchanged. -/
theorem update_target_nearest_witness :
    nearestSpec [] pgC7 agC7 ∧
    update_target [] pgC7 { agC7 with target_position := some (0, 1) } =
      some { agC7 with target_position := some (0, 1) } :=
  ⟨update_target_nearest.1 [] pgC7 agC7 (Or.inl (by decide)) (by decide),
   update_target_nearest.2 [] pgC7 _ (0, 1) rfl rfl⟩

theorem headD_length {α : Type} (l : List (List α)) (h : 0 < l.length)
    (n : Nat) (hrows : ∀ row ∈ l, row.length = n) :
    (l.headD []).length = n := by
  cases l with
  | nil => simp at h
  | cons h0 tl => exact hrows h0 (List.mem_cons_self ..)

/-- C8: `get_surrounding_cells` returns a square window of side
`2*(fov/2)+1` — `fov` itself when odd, the next larger odd number when even —
and under a well-formed grid every entry at an absolute coordinate outside
`[0, width) × [0, height)` is the sentinel `"out"` (not a terrain token),
while every in-bounds entry is the grid's cell at that coordinate. -/
theorem get_surrounding_cells_spec (pg : Playground) (hwf : wf pg)
    (p : Int × Int) (fov : Nat) :
    (fov % 2 = 1 → 2 * (fov / 2) + 1 = fov) ∧
    (fov % 2 = 0 → 2 * (fov / 2) + 1 = fov + 1) ∧
    (get_surrounding_cells pg p fov).length = 2 * (fov / 2) + 1 ∧
    (∀ row ∈ get_surrounding_cells pg p fov,
      row.length = 2 * (fov / 2) + 1) ∧
    "out" ∉ terrainTokens ∧
    (∀ r c : Nat, r < 2 * (fov / 2) + 1 → c < 2 * (fov / 2) + 1 →
      ∀ i j : Int, i = p.2 - (fov / 2 : Nat) + r → j = p.1 - (fov / 2 : Nat) + c →
      ∃ row entry,
        (get_surrounding_cells pg p fov).get? r = some row ∧
        row.get? c = some entry ∧
        ((0 ≤ i ∧ i < (pg.yAxis : Int) ∧ 0 ≤ j ∧ j < (pg.xAxis : Int)) →
          (pg.grid.get? i.toNat).bind (fun row2 => row2.get? j.toNat) =
            some entry) ∧
        (¬(0 ≤ i ∧ i < (pg.yAxis : Int) ∧ 0 ≤ j ∧ j < (pg.xAxis : Int)) →
          entry = "out")) := by
  obtain ⟨hlen, hrows⟩ := hwf
  refine ⟨by omega, by omega, by simp [get_surrounding_cells], ?_, by decide,
    ?_⟩
  · intro row hrow
    unfold get_surrounding_cells at hrow
    rw [List.mem_map] at hrow
    obtain ⟨r, _, hr⟩ := hrow
    rw [← hr]
    simp
  · intro r c hr hc i j hi hj
    have hwin :
        (get_surrounding_cells pg p fov).get? r =
          some ((List.range (2 * (fov / 2) + 1)).map fun c2 : Nat =>
            if (p.2 - (fov / 2 : Nat) + (r : Int)) < 0 ∨
                (p.1 - (fov / 2 : Nat) + (c2 : Int)) < 0 ∨
                (pg.grid.length : Int) ≤ p.2 - (fov / 2 : Nat) + (r : Int) ∨
                ((pg.grid.headD []).length : Int) ≤
                  p.1 - (fov / 2 : Nat) + (c2 : Int)
            then "out"
            else (pg.grid.getD (p.2 - (fov / 2 : Nat) + (r : Int)).toNat
              []).getD (p.1 - (fov / 2 : Nat) + (c2 : Int)).toNat "out") := by
      unfold get_surrounding_cells
      rw [List.get?_map, List.get?_range hr]
      rfl
    have hentry :
        ((List.range (2 * (fov / 2) + 1)).map fun c2 : Nat =>
            if (p.2 - (fov / 2 : Nat) + (r : Int)) < 0 ∨
                (p.1 - (fov / 2 : Nat) + (c2 : Int)) < 0 ∨
                (pg.grid.length : Int) ≤ p.2 - (fov / 2 : Nat) + (r : Int) ∨
                ((pg.grid.headD []).length : Int) ≤
                  p.1 - (fov / 2 : Nat) + (c2 : Int)
            then "out"
            else (pg.grid.getD (p.2 - (fov / 2 : Nat) + (r : Int)).toNat
              []).getD (p.1 - (fov / 2 : Nat) + (c2 : Int)).toNat
              "out").get? c =
          some
            (if (p.2 - (fov / 2 : Nat) + (r : Int)) < 0 ∨
                (p.1 - (fov / 2 : Nat) + (c : Int)) < 0 ∨
                (pg.grid.length : Int) ≤ p.2 - (fov / 2 : Nat) + (r : Int) ∨
                ((pg.grid.headD []).length : Int) ≤
                  p.1 - (fov / 2 : Nat) + (c : Int)
            then "out"
            else (pg.grid.getD (p.2 - (fov / 2 : Nat) + (r : Int)).toNat
              []).getD (p.1 - (fov / 2 : Nat) + (c : Int)).toNat "out") := by
      rw [List.get?_map, List.get?_range hc]
      rfl
    refine ⟨_, _, hwin, hentry, ?_, ?_⟩
    · intro hin
      rw [← hi, ← hj]
      have hy0 : 0 < pg.grid.length := by omega
      have hcond : ¬(i < 0 ∨ j < 0 ∨ (pg.grid.length : Int) ≤ i ∨
          ((pg.grid.headD []).length : Int) ≤ j) := by
        rw [headD_length pg.grid hy0 pg.xAxis hrows]
        omega
      rw [if_neg hcond]
      have hiN : i.toNat < pg.grid.length := by omega
      cases hg2 : pg.grid.get? i.toNat with
      | none => rw [List.get?_eq_none] at hg2; omega
      | some row2 =>
        have hrow2 : row2.length = pg.xAxis := hrows row2 (List.get?_mem hg2)
        have hjN : j.toNat < row2.length := by omega
        cases hg3 : row2.get? j.toNat with
        | none => rw [List.get?_eq_none] at hg3; omega
        | some entry2 =>
          simp only [List.getD_eq_get?, hg2, hg3, Option.getD_some,
            Option.some_bind]
    · intro hout
      rw [← hi, ← hj]
      have hcond : i < 0 ∨ j < 0 ∨ (pg.grid.length : Int) ≤ i ∨
          ((pg.grid.headD []).length : Int) ≤ j := by
        by_cases hy : 0 ≤ i ∧ i < (pg.yAxis : Int)
        · have hy0 : 0 < pg.grid.length := by omega
          rw [headD_length pg.grid hy0 pg.xAxis hrows]
          omega
        · omega
      rw [if_pos hcond]

/-- C8 (witness): the spec at the concrete 3-wide, 2-high playground `pgC8`,
center `(0, 0)`, field of view 3. -/
theorem get_surrounding_cells_spec_witness :
    (get_surrounding_cells pgC8 (0, 0) 3).length = 2 * (3 / 2) + 1 ∧
    ∃ row entry, (get_surrounding_cells pgC8 (0, 0) 3).get? 0 = some row ∧
      row.get? 0 = some entry ∧ entry = "out" := by
  have h := get_surrounding_cells_spec pgC8 (by decide) (0, 0) 3
  refine ⟨h.2.2.1, ?_⟩
  obtain ⟨row, entry, h1, h2, _, h4⟩ :=
    h.2.2.2.2.2 0 0 (by decide) (by decide) (-1) (-1) (by decide) (by decide)
  exact ⟨row, entry, h1, h2, h4 (by decide)⟩

theorem pySetCell_orbs {pg pg2 : Playground} {p : Int × Int} {v : String}
    (h : pySetCell pg p v = some pg2) :
    pg2.orb_positions = pg.orb_positions := by
  unfold pySetCell at h
  rw [Option.map_eq_some'] at h
  obtain ⟨g, _, hpg⟩ := h
  rw [← hpg]

theorem agent_exit_cell_orbs {pg pg2 : Playground} {a : Agent}
    (h : agent_exit_cell pg a = some pg2) :
    pg2.orb_positions = pg.orb_positions := by
  unfold agent_exit_cell at h
  split at h
  · cases h
  · exact pySetCell_orbs h

theorem agent_enter_cell_orbs {pg : Playground} {pos : Option (Int × Int)}
    {a : Agent} {r : Bool × Playground}
    (h : agent_enter_cell pg pos a = some r) :
    r.2.orb_positions = pg.orb_positions := by
  unfold agent_enter_cell at h
  by_cases hv : is_valid_position pg pos = false
  · rw [if_pos hv] at h
    cases h
    rfl
  · rw [if_neg hv] at h
    cases pos with
    | none => simp at h
    | some p =>
      dsimp only at h
      cases hread : get_cell_state pg p with
      | none => rw [hread] at h; simp at h
      | some cur =>
        rw [hread] at h
        dsimp only at h
        cases hexit : agent_exit_cell pg a with
        | none => rw [hexit] at h; simp at h
        | some pg1 =>
          rw [hexit] at h
          dsimp only at h
          cases hset : pySetCell pg1 p (cur ++ "," ++ get_label a) with
          | none => rw [hset] at h; simp at h
          | some pg3 =>
            rw [hset] at h
            dsimp only at h
            cases h
            exact (pySetCell_orbs hset).trans (agent_exit_cell_orbs hexit)

theorem take_step_forward_orbs {pg : Playground} {a : Agent}
    {r : Bool × Agent × Playground} (h : take_step_forward pg a = some r) :
    r.2.2.orb_positions = pg.orb_positions := by
  unfold take_step_forward at h
  dsimp only at h
  split at h
  · cases h
  · rename_i pg1 heq
    cases h
    exact agent_enter_cell_orbs heq
  · rename_i pg1 heq
    cases h
    exact agent_enter_cell_orbs heq

/-- C5 (amended): with validity meaning the code's `is_valid_position` test,
`place_orb` returns `False` with the playground unchanged exactly when that
test fails, the agent carries no orb, or the successfully read cell lacks the
`Hole` token; any `False` return leaves the playground unchanged; on success
the cell's `Hole` token was rewritten to `FilledHole` and the result is one
run of `switch_orb_positions` over that updated playground; and neither
`take_step_forward` nor `agent_enter_cell` ever touches the orb registry (a
position that passes the validity test with its y-coordinate at or above the
grid height makes the read fail instead — see the counterexample). -/
theorem place_orb_failure_success_spec :
    (∀ (rand : Nat → Bool × String) (pg : Playground)
      (pos : Option (Int × Int)) (a : Agent),
      place_orb rand pg pos a = some (false, pg) ↔
        (is_valid_position pg pos = false ∨ a.has_ball = false ∨
          (∃ p cur, pos = some p ∧ get_cell_state pg p = some cur ∧
            pyIn HOLE cur = false))) ∧
    (∀ (rand : Nat → Bool × String) (pg : Playground)
      (pos : Option (Int × Int)) (a : Agent) (pg2 : Playground),
      place_orb rand pg pos a = some (false, pg2) → pg2 = pg) ∧
    (∀ (rand : Nat → Bool × String) (pg : Playground)
      (pos : Option (Int × Int)) (a : Agent) (pg2 : Playground),
      place_orb rand pg pos a = some (true, pg2) →
        is_valid_position pg pos = true ∧ a.has_ball = true ∧
        ∃ p cur pg1, pos = some p ∧ get_cell_state pg p = some cur ∧
          pyIn HOLE cur = true ∧
          pySetCell pg p (pyReplace cur HOLE FILLED_HOLE) = some pg1 ∧
          get_cell_state pg1 p = some (pyReplace cur HOLE FILLED_HOLE) ∧
          switch_orb_positions rand pg1 = some pg2) ∧
    (∀ (pg : Playground) (a : Agent) (r : Bool × Agent × Playground),
      take_step_forward pg a = some r →
        r.2.2.orb_positions = pg.orb_positions) ∧
    (∀ (pg : Playground) (pos : Option (Int × Int)) (a : Agent)
      (r : Bool × Playground),
      agent_enter_cell pg pos a = some r →
        r.2.orb_positions = pg.orb_positions) := by
  refine ⟨?_, ?_, ?_, fun pg a r h => take_step_forward_orbs h,
    fun pg pos a r h => agent_enter_cell_orbs h⟩
  · intro rand pg pos a
    constructor
    · intro h
      by_cases hv : is_valid_position pg pos = false
      · exact Or.inl hv
      · by_cases hb : a.has_ball = false
        · exact Or.inr (Or.inl hb)
        · unfold place_orb at h
          rw [if_neg hv, if_neg hb] at h
          cases pos with
          | none => simp at h
          | some p =>
            dsimp only at h
            cases hread : get_cell_state pg p with
            | none => rw [hread] at h; simp at h
            | some cur =>
              rw [hread] at h
              dsimp only at h
              by_cases hhole : pyIn HOLE cur = false
              · exact Or.inr (Or.inr ⟨p, cur, rfl, hread, hhole⟩)
              · rw [if_neg hhole] at h
                cases hset :
                    pySetCell pg p (pyReplace cur HOLE FILLED_HOLE) with
                | none => rw [hset] at h; simp at h
                | some pg1 =>
                  rw [hset] at h
                  dsimp only at h
                  cases hsw : switch_orb_positions rand pg1 with
                  | none => rw [hsw] at h; simp at h
                  | some pg3 => rw [hsw] at h; simp at h
    · intro h
      unfold place_orb
      rcases h with hv | hb | ⟨p, cur, hpos, hread, hhole⟩
      · rw [if_pos hv]
      · by_cases hv : is_valid_position pg pos = false
        · rw [if_pos hv]
        · rw [if_neg hv, if_pos hb]
      · by_cases hv : is_valid_position pg pos = false
        · rw [if_pos hv]
        · by_cases hb : a.has_ball = false
          · rw [if_neg hv, if_pos hb]
          · rw [if_neg hv, if_neg hb]
            subst hpos
            dsimp only
            rw [hread]
            dsimp only
            rw [if_pos hhole]
  · intro rand pg pos a pg2 h
    unfold place_orb at h
    by_cases hv : is_valid_position pg pos = false
    · rw [if_pos hv] at h
      simp at h
      exact h.symm
    · rw [if_neg hv] at h
      by_cases hb : a.has_ball = false
      · rw [if_pos hb] at h
        simp at h
        exact h.symm
      · rw [if_neg hb] at h
        cases pos with
        | none => simp at h
        | some p =>
          dsimp only at h
          cases hread : get_cell_state pg p with
          | none => rw [hread] at h; simp at h
          | some cur =>
            rw [hread] at h
            dsimp only at h
            by_cases hhole : pyIn HOLE cur = false
            · rw [if_pos hhole] at h
              simp at h
              exact h.symm
            · rw [if_neg hhole] at h
              cases hset :
                  pySetCell pg p (pyReplace cur HOLE FILLED_HOLE) with
              | none => rw [hset] at h; simp at h
              | some pg1 =>
                rw [hset] at h
                dsimp only at h
                cases hsw : switch_orb_positions rand pg1 with
                | none => rw [hsw] at h; simp at h
                | some pg3 => rw [hsw] at h; simp at h
  · intro rand pg pos a pg2 h
    unfold place_orb at h
    by_cases hv : is_valid_position pg pos = false
    · rw [if_pos hv] at h
      simp at h
    · rw [if_neg hv] at h
      by_cases hb : a.has_ball = false
      · rw [if_pos hb] at h
        simp at h
      · rw [if_neg hb] at h
        have hv2 : is_valid_position pg pos = true := by
          cases hB : is_valid_position pg pos
          · exact absurd hB hv
          · rfl
        have hb2 : a.has_ball = true := by
          cases hB : a.has_ball
          · exact absurd hB hb
          · rfl
        cases pos with
        | none => simp at h
        | some p =>
          dsimp only at h
          cases hread : get_cell_state pg p with
          | none => rw [hread] at h; simp at h
          | some cur =>
            rw [hread] at h
            dsimp only at h
            by_cases hhole : pyIn HOLE cur = false
            · rw [if_pos hhole] at h
              simp at h
            · rw [if_neg hhole] at h
              have hhole2 : pyIn HOLE cur = true := by
                cases hB : pyIn HOLE cur
                · exact absurd hB hhole
                · rfl
              cases hset :
                  pySetCell pg p (pyReplace cur HOLE FILLED_HOLE) with
              | none => rw [hset] at h; simp at h
              | some pg1 =>
                rw [hset] at h
                dsimp only at h
                cases hsw : switch_orb_positions rand pg1 with
                | none => rw [hsw] at h; simp at h
                | some pg3 =>
                  rw [hsw] at h
                  dsimp only at h
                  have hpg : pg3 = pg2 := by simpa using h
                  subst hpg
                  exact ⟨hv2, hb2, p, cur, pg1, rfl, hread, hhole2, hset,
                    pySetCell_get hset, hsw⟩

/-- C5 (witness): the amended failure equivalence at a concrete input — an
empty-handed agent on the 1 by 1 playground `pgC7`. -/
theorem place_orb_failure_success_spec_witness :
    place_orb noRand pgC7 (some (0, 0)) agC7 = some (false, pgC7) :=
  (place_orb_failure_success_spec.1 noRand pgC7 (some (0, 0)) agC7).mpr
    (Or.inr (Or.inl rfl))

/-- C9 (amended): `agent_exit_cell` removes the exiting agent's label while
preserving the terrain token and the other occupant for every terrain token
(both occupant orders), reverts a bare-label start cell to `EMPTY`, and
`agent_enter_cell` appends `,label` to the destination cell read before the
exit, preserving its terrain token — but a cell whose leading occupant
already exited keeps a leading comma, and after the last occupant leaves such
a cell it becomes the empty string instead of `EMPTY` (see the
counterexample). -/
theorem agent_exit_enter_terrain_spec :
    (∀ t ∈ terrainTokens,
      exitResult (t ++ ",AGENT-a2,AGENT-a1") = some (t ++ ",AGENT-a2") ∧
      exitResult (t ++ ",AGENT-a1,AGENT-a2") = some (t ++ ",AGENT-a2") ∧
      exitResult (t ++ ",AGENT-a1") = some t) ∧
    exitResult "AGENT-a1" = some EMPTY ∧
    (∀ (pg : Playground) (p : Int × Int) (a : Agent) (pg2 : Playground),
      agent_enter_cell pg (some p) a = some (true, pg2) →
      ∃ cur, get_cell_state pg p = some cur ∧
        get_cell_state pg2 p = some (cur ++ "," ++ get_label a)) := by
  refine ⟨by decide, by decide, ?_⟩
  intro pg p a pg2 h
  unfold agent_enter_cell at h
  by_cases hv : is_valid_position pg (some p) = false
  · rw [if_pos hv] at h
    simp at h
  · rw [if_neg hv] at h
    dsimp only at h
    cases hread : get_cell_state pg p with
    | none => rw [hread] at h; simp at h
    | some cur =>
      rw [hread] at h
      dsimp only at h
      cases hexit : agent_exit_cell pg a with
      | none => rw [hexit] at h; simp at h
      | some pg1 =>
        rw [hexit] at h
        dsimp only at h
        cases hset : pySetCell pg1 p (cur ++ "," ++ get_label a) with
        | none => rw [hset] at h; simp at h
        | some pg3 =>
          rw [hset] at h
          dsimp only at h
          have hpg : pg3 = pg2 := by simpa using h
          subst hpg
          exact ⟨cur, rfl, pySetCell_get hset⟩

/-- C9 (witness): the exit behaviour at the `HOLE` token and a concrete
successful entry into the origin hole cell of `pgE`. -/
theorem agent_exit_enter_terrain_spec_witness :
    exitResult (HOLE ++ ",AGENT-a2,AGENT-a1") = some (HOLE ++ ",AGENT-a2") ∧
    ∃ cur, get_cell_state pgE (0, 0) = some cur ∧
      get_cell_state pgE2 (0, 0) = some (cur ++ "," ++ get_label agE) :=
  ⟨(agent_exit_enter_terrain_spec.1 HOLE (by decide)).1,
   agent_exit_enter_terrain_spec.2.2 pgE (0, 0) agE pgE2 (by decide)⟩

theorem bool_eq_false_of_not {b : Bool} (h : ¬ b = true) : b = false := by
  cases b
  · rfl
  · exact absurd rfl h

theorem update_item_battery (a : Agent) :
    (update_item_positions a).battery = a.battery := rfl

theorem put_ball_battery {rand : Nat → Bool × String} {pg : Playground}
    {a : Agent} {r : Bool × Agent × Playground}
    (h : put_ball_in_hole rand pg a = some r) : r.2.1.battery = a.battery := by
  unfold put_ball_in_hole at h
  split at h
  · cases h; rfl
  · split at h
    · cases h
    · split at h
      · cases h
      · cases h; rfl
    · cases h; rfl

theorem take_ball_battery {pg : Playground} {a : Agent}
    {r : Bool × Agent × Playground}
    (h : take_ball pg a = some r) : r.2.1.battery = a.battery := by
  unfold take_ball at h
  split at h
  · cases h; rfl
  · split at h
    · cases h
    · split at h
      · cases h
      · cases h; rfl
    · cases h; rfl

theorem interact_spec {rand : Nat → Bool × String} {pg : Playground}
    {a : Agent} {f : Bool} {a1 : Agent} {pg1 : Playground}
    (h : interact_with_environment rand pg a = some (f, a1, pg1)) :
    f = interactFlag pg a ∧ a1.battery = a.battery := by
  unfold interact_with_environment at h
  by_cases h1 : (a.has_ball && is_a_hole_cell pg a.position) = true
  · rw [if_pos h1] at h
    split at h
    · cases h
    · rename_i b2 a2 pg2 hput
      injection h with h2
      injection h2 with hfeq h3
      injection h3 with haeq hpgeq
      subst hfeq
      subst haeq
      exact ⟨by simp [interactFlag, h1], put_ball_battery hput⟩
  · rw [if_neg h1] at h
    have h1f : (a.has_ball && is_a_hole_cell pg a.position) = false :=
      bool_eq_false_of_not h1
    by_cases h2 : (!a.has_ball && is_a_orb_cell pg a.position) = true
    · rw [if_pos h2] at h
      split at h
      · cases h
      · rename_i b2 a2 pg2 htake
        injection h with h3
        injection h3 with hfeq h4
        injection h4 with haeq hpgeq
        subst hfeq
        subst haeq
        exact ⟨by simp [interactFlag, h1f, h2], take_ball_battery htake⟩
    · rw [if_neg h2] at h
      have h2f : (!a.has_ball && is_a_orb_cell pg a.position) = false :=
        bool_eq_false_of_not h2
      have hflag : interactFlag pg a = false := by
        simp [interactFlag, h1f, h2f]
      by_cases h3 : a.target_position = some a.position
      · rw [if_pos h3] at h
        injection h with h4
        injection h4 with hfeq h5
        injection h5 with haeq hpgeq
        subst hfeq
        subst haeq
        exact ⟨hflag.symm, rfl⟩
      · rw [if_neg h3] at h
        injection h with h4
        injection h4 with hfeq h5
        injection h5 with haeq hpgeq
        subst hfeq
        subst haeq
        exact ⟨hflag.symm, rfl⟩

theorem update_target_battery {stream : List (Int × Int)} {pg : Playground}
    {a a1 : Agent} (h : update_target stream pg a = some a1) :
    a1.battery = a.battery := by
  unfold update_target at h
  by_cases h1 : a.target_position ≠ none ∧ a.is_a_random_target = false
  · rw [if_pos h1] at h
    cases h
    rfl
  · rw [if_neg h1] at h
    by_cases h2 : targetList a ≠ []
    · rw [if_pos h2] at h
      cases hf : find_nearest a.position (targetList a) with
      | none => rw [hf] at h; simp at h
      | some t =>
        rw [hf] at h
        dsimp only at h
        cases h
        rfl
    · rw [if_neg h2] at h
      by_cases h3 : a.is_a_random_target = false
      · rw [if_pos h3] at h
        cases hf : find_random_position stream a.visited_cell with
        | none => rw [hf] at h; simp at h
        | some q =>
          rw [hf] at h
          dsimp only at h
          cases h
          rfl
      · rw [if_neg h3] at h
        cases h
        rfl

theorem turn_clockwise_battery {a a1 : Agent} (h : turn_clockwise a = some a1) :
    a1.battery = a.battery := by
  unfold turn_clockwise at h
  cases hf : dirList.findIdx? (fun d => d = a.direction) with
  | none => rw [hf] at h; simp at h
  | some i =>
    rw [hf] at h
    dsimp only at h
    cases h
    rfl

theorem turnTo_battery (d : String) :
    ∀ (n : Nat) (a a1 : Agent), turnTo d n a = some a1 →
      a1.battery = a.battery := by
  intro n
  induction n with
  | zero =>
    intro a a1 h
    unfold turnTo at h
    split at h
    · cases h; rfl
    · cases h
  | succ n ih =>
    intro a a1 h
    unfold turnTo at h
    split at h
    · cases h; rfl
    · cases htc : turn_clockwise a with
      | none => rw [htc] at h; simp at h
      | some a3 =>
        rw [htc] at h
        dsimp only at h
        exact (ih a3 a1 h).trans (turn_clockwise_battery htc)

theorem take_step_battery {pg : Playground} {a : Agent}
    {r : Bool × Agent × Playground} (h : take_step_forward pg a = some r) :
    r.2.1.battery = a.battery - 1 := by
  unfold take_step_forward at h
  dsimp only at h
  split at h
  · cases h
  · cases h; rfl
  · cases h; rfl

theorem action_battery {stream : List (Int × Int)}
    {rand : Nat → Bool × String} {pg : Playground} {a a2 : Agent}
    {pg2 : Playground} (h : action stream rand pg a = some (a2, pg2)) :
    (interactFlag pg a = true → a2.battery = a.battery) ∧
    (interactFlag pg a = false → a2.battery = a.battery - 1) := by
  unfold action at h
  dsimp only at h
  cases hint :
      interact_with_environment rand pg (update_item_positions a) with
  | none => rw [hint] at h; simp at h
  | some tr =>
    rw [hint] at h
    obtain ⟨f, a3, pg3⟩ := tr
    obtain ⟨hf, hbat⟩ := interact_spec hint
    rw [show interactFlag pg (update_item_positions a) = interactFlag pg a
      from rfl] at hf
    rw [update_item_battery] at hbat
    cases f with
    | true =>
      dsimp only at h
      split at h
      · cases h
      · split at h
        · cases h
        · injection h with h2
          injection h2 with ha hpg
          refine ⟨fun _ => ?_, fun hff => ?_⟩
          · calc a2.battery = a3.battery := by rw [← ha, update_item_battery]
            _ = a.battery := hbat
          · rw [← hf] at hff
            cases hff
    | false =>
      dsimp only at h
      split at h
      · cases h
      · rename_i a4 hu
        split at h
        · cases h
        · rename_i t ht
          split at h
          · cases h
          · rename_i a5 h5
            split at h
            · cases h
            · rename_i b6 a6 pg6 hts
              injection h with h2
              injection h2 with ha hpg
              have h5bat : a5.battery = a4.battery := by
                by_cases c1 : a4.position.1 < t.1
                · rw [if_pos c1] at h5; exact turnTo_battery RIGHT 4 a4 a5 h5
                · rw [if_neg c1] at h5
                  by_cases c2 : t.1 < a4.position.1
                  · rw [if_pos c2] at h5; exact turnTo_battery LEFT 4 a4 a5 h5
                  · rw [if_neg c2] at h5
                    by_cases c3 : a4.position.2 < t.2
                    · rw [if_pos c3] at h5
                      exact turnTo_battery DOWN 4 a4 a5 h5
                    · rw [if_neg c3] at h5
                      by_cases c4 : t.2 < a4.position.2
                      · rw [if_pos c4] at h5
                        exact turnTo_battery UP 4 a4 a5 h5
                      · rw [if_neg c4] at h5; cases h5; rfl
              refine ⟨fun htt => ?_, fun _ => ?_⟩
              · rw [← hf] at htt
                cases htt
              · calc a2.battery = a6.battery := by rw [← ha]
                _ = a5.battery - 1 := take_step_battery hts
                _ = a.battery - 1 := by
                  rw [h5bat, update_target_battery hu, hbat]

/-- C3 (amended): an agent skipped for battery exhaustion (battery below 0 at
round start) is left entirely unchanged by its round step; an eligible agent's
battery either stays equal (exactly when the interact-first branch fires —
standing on a hole cell carrying, or on an orb cell empty-handed) or drops by
exactly 1 (when it instead moves); it never increases. -/
theorem round_step_battery_spec :
    (∀ (rr : RoundRand) (pg : Playground) (a : Agent),
      a.battery < 0 → round_step rr pg a = some (a, pg)) ∧
    (∀ (rr : RoundRand) (pg : Playground) (a a2 : Agent) (pg2 : Playground),
      0 ≤ a.battery → round_step rr pg a = some (a2, pg2) →
      (a2.battery = a.battery ∨ a2.battery = a.battery - 1) ∧
      (interactFlag pg a = true → a2.battery = a.battery) ∧
      (interactFlag pg a = false → a2.battery = a.battery - 1)) := by
  constructor
  · intro rr pg a h
    unfold round_step
    rw [if_pos h]
  · intro rr pg a a2 pg2 hb h
    unfold round_step at h
    rw [if_neg (by omega)] at h
    dsimp only at h
    have hact := action_battery h
    refine ⟨?_, hact.1, hact.2⟩
    cases hfl : interactFlag pg a with
    | false => exact Or.inr (hact.2 hfl)
    | true => exact Or.inl (hact.1 hfl)

/-- C3 (witness): the amended theorem at concrete inputs — the eligible,
non-interacting agent of `pgW3` loses exactly one unit of battery, and an
exhausted agent is skipped unchanged. -/
theorem round_step_battery_spec_witness :
    interactFlag pgW3 agW3 = false ∧ (0 : Int) ≤ agW3.battery ∧
    rsW3.1.battery = agW3.battery - 1 ∧
    round_step rrW3 pgW3 { agW3 with battery := -1 } =
      some ({ agW3 with battery := -1 }, pgW3) :=
  ⟨by decide, by decide,
   (round_step_battery_spec.2 rrW3 pgW3 agW3 rsW3.1 rsW3.2 (by decide)
      (by decide)).2.2 (by decide),
   round_step_battery_spec.1 rrW3 pgW3 _ (by decide)⟩

end BallHole
